import Mathlib

/-!
Verification of the transcription core of the voice-recorder extension.

The definitions below are shallow embeddings of the TypeScript sources:

* `src/components/SidePanel.tsx` — the transcription text cleaning chain
  (strip leading non-letters, collapse whitespace, trim);
* `src/services/speechToTextService.ts` — the multi-strategy orchestration
  loop and the per-strategy end-of-session handlers;
* `src/services/trueOfflineTranscriptionService.ts` — audio validation and
  the virtual-stream recognition session;
* `src/services/cleanTranscriptionService.ts` — result processing, average
  confidence, and the strategy dispatcher;
* `src/services/whisperTranscriptionService.ts` — its audio validation.

Strings are modelled as lists of characters (JS strings, code point wise);
numbers that the code compares or averages (durations, confidences) are
modelled as rationals; audio blobs are opaque and only their decodable
metadata and byte size enter the model.
-/

/-! ## Character classes of the JS regexes used by the cleaning chain

`\s` and `String.prototype.trim` use the same whitespace set in JS;
the leading-strip regex class is `[^a-zA-ZÀ-ſ]`. -/

/-- Code points of the JS `\s` class (WhiteSpace plus LineTerminator). -/
def isWSCode (n : Nat) : Bool :=
  n == 0x9 || n == 0xA || n == 0xB || n == 0xC || n == 0xD || n == 0x20 ||
  n == 0xA0 || n == 0x1680 || (0x2000 ≤ n && n ≤ 0x200A) ||
  n == 0x2028 || n == 0x2029 || n == 0x202F || n == 0x205F ||
  n == 0x3000 || n == 0xFEFF

/-- Code points of the letter class `a-zA-ZÀ-ſ` of the
SidePanel cleaning regex. -/
def isLetterCode (n : Nat) : Bool :=
  (0x41 ≤ n && n ≤ 0x5A) || (0x61 ≤ n && n ≤ 0x7A) ||
  (0xC0 ≤ n && n ≤ 0x17F)

def isWS (c : Char) : Bool := isWSCode c.toNat

def isLetterChar (c : Char) : Bool := isLetterCode c.toNat

theorem letter_not_ws_code {n : Nat} (h : isLetterCode n = true) : isWSCode n = false := by
  unfold isLetterCode at h
  unfold isWSCode
  simp only [Bool.or_eq_true, Bool.and_eq_true, decide_eq_true_eq, beq_iff_eq] at h
  simp only [Bool.or_eq_false_iff, Bool.and_eq_false_iff, beq_eq_false_iff_ne, ne_eq,
    decide_eq_false_iff_not, not_le]
  omega

theorem letter_not_ws {c : Char} (h : isLetterChar c = true) : isWS c = false :=
  letter_not_ws_code h

/-! ## JS string primitives on `List Char` -/

/-- `String.prototype.trimStart`: drop leading JS whitespace. -/
def trimLeft (s : List Char) : List Char := s.dropWhile isWS

/-- `String.prototype.trimEnd`: drop trailing JS whitespace. -/
def trimRight (s : List Char) : List Char := (s.reverse.dropWhile isWS).reverse

/-- `String.prototype.trim`. -/
def jsTrim (s : List Char) : List Char := trimRight (trimLeft s)

/-- Worker for `replace(/\s+/g, ' ')`: the flag records whether we are
inside a whitespace run that has already emitted its single space. -/
def collapseAux : Bool → List Char → List Char
  | _, [] => []
  | inRun, c :: rest =>
    if isWS c then
      if inRun then collapseAux true rest
      else ' ' :: collapseAux true rest
    else c :: collapseAux false rest

/-- `replace(/\s+/g, ' ')`: every maximal whitespace run becomes one space. -/
def collapseWS (s : List Char) : List Char := collapseAux false s

/-- `replace(/^[^a-zA-ZÀ-ſ]*/, '')`: drop the longest leading run
of characters outside the letter class. -/
def dropLeadingNonLetters (s : List Char) : List Char :=
  s.dropWhile (fun c => !(isLetterChar c))

/-- The cleaning chain of `performAutoTranscription` in `SidePanel.tsx`:
strip leading non-letters, collapse whitespace runs, trim. -/
def cleanTranscript (s : List Char) : List Char :=
  jsTrim (collapseWS (dropLeadingNonLetters s))

example : cleanTranscript "  12–3 hello   world \t ".toList = "hello world".toList := by decide
example : cleanTranscript "".toList = [] := by decide
example : cleanTranscript "héllo".toList = "héllo".toList := by decide

/-! ## Canonical forms for the cleaning chain (towards idempotence) -/

/-- The head of the list, if any, falsifies `p`. -/
def headRejects (p : Char → Bool) : List Char → Bool
  | [] => true
  | c :: _ => !p c

/-- Every whitespace character is a plain space and is never followed by
another whitespace character: the shape `replace(/\s+/g, ' ')` produces. -/
def collapsedB : List Char → Bool
  | [] => true
  | c :: rest =>
    (if isWS c then c == ' ' && headRejects isWS rest else true) && collapsedB rest

theorem headRejects_dropWhile (p : Char → Bool) (s : List Char) :
    headRejects p (s.dropWhile p) = true := by
  induction s with
  | nil => rfl
  | cons c t ih =>
    by_cases h : p c = true
    · simpa [List.dropWhile_cons, h] using ih
    · simp [List.dropWhile_cons, h, headRejects]

theorem dropWhile_of_headRejects {p : Char → Bool} {s : List Char}
    (h : headRejects p s = true) : s.dropWhile p = s := by
  cases s with
  | nil => rfl
  | cons c t =>
    simp only [headRejects, Bool.not_eq_true'] at h
    simp [List.dropWhile_cons, h]

theorem headRejects_append_left {p : Char → Bool} {u t : List Char}
    (h : headRejects p (u ++ t) = true) : headRejects p u = true := by
  cases u with
  | nil => rfl
  | cons c u' => simpa [headRejects] using h

theorem collapsedB_tail {c : Char} {rest : List Char}
    (h : collapsedB (c :: rest) = true) : collapsedB rest = true := by
  simp only [collapsedB, Bool.and_eq_true] at h
  exact h.2

theorem collapsedB_append_left {u t : List Char}
    (h : collapsedB (u ++ t) = true) : collapsedB u = true := by
  induction u with
  | nil => rfl
  | cons c u' ih =>
    simp only [List.cons_append, collapsedB, Bool.and_eq_true] at h
    obtain ⟨hc, hrest⟩ := h
    simp only [collapsedB, Bool.and_eq_true]
    refine ⟨?_, ih hrest⟩
    by_cases hw : isWS c = true
    · simp only [hw, if_true, Bool.and_eq_true] at hc ⊢
      exact ⟨hc.1, headRejects_append_left hc.2⟩
    · simp [hw]

theorem collapsedB_dropWhile {p : Char → Bool} {s : List Char}
    (h : collapsedB s = true) : collapsedB (s.dropWhile p) = true := by
  induction s with
  | nil => exact h
  | cons c t ih =>
    by_cases hp : p c = true
    · simpa [List.dropWhile_cons, hp] using ih (collapsedB_tail h)
    · simpa [List.dropWhile_cons, hp] using h

/-- `trimRight` keeps a prefix of the string and removes only a
whitespace suffix. -/
theorem trimRight_decomposition (s : List Char) :
    s = trimRight s ++ (s.reverse.takeWhile isWS).reverse := by
  have h : s.reverse = s.reverse.takeWhile isWS ++ s.reverse.dropWhile isWS :=
    (List.takeWhile_append_dropWhile (p := isWS) (l := s.reverse)).symm
  calc s = s.reverse.reverse := (List.reverse_reverse s).symm
    _ = (s.reverse.takeWhile isWS ++ s.reverse.dropWhile isWS).reverse := by rw [← h]
    _ = (s.reverse.dropWhile isWS).reverse ++ (s.reverse.takeWhile isWS).reverse := by
        rw [List.reverse_append]
    _ = trimRight s ++ (s.reverse.takeWhile isWS).reverse := rfl

theorem headRejects_trimRight {p : Char → Bool} {s : List Char}
    (h : headRejects p s = true) : headRejects p (trimRight s) = true := by
  have hd := trimRight_decomposition s
  cases hc : trimRight s with
  | nil => rfl
  | cons c t =>
    rw [hc] at hd
    rw [hd] at h
    simpa [headRejects] using h

theorem collapsedB_trimRight {s : List Char}
    (h : collapsedB s = true) : collapsedB (trimRight s) = true := by
  have hd := trimRight_decomposition s
  rw [hd] at h
  exact collapsedB_append_left h

theorem collapsedB_jsTrim {s : List Char}
    (h : collapsedB s = true) : collapsedB (jsTrim s) = true :=
  collapsedB_trimRight (collapsedB_dropWhile h)

theorem headRejects_isWS_collapseAux_true (s : List Char) :
    headRejects isWS (collapseAux true s) = true := by
  induction s with
  | nil => rfl
  | cons c t ih =>
    by_cases hw : isWS c = true
    · simpa [collapseAux, hw] using ih
    · simp [collapseAux, hw, headRejects]

theorem collapsedB_collapseAux (s : List Char) :
    ∀ b, collapsedB (collapseAux b s) = true := by
  induction s with
  | nil => intro b; rfl
  | cons c t ih =>
    intro b
    by_cases hw : isWS c = true
    · cases b with
      | true => simpa [collapseAux, hw] using ih true
      | false =>
        simp only [collapseAux, hw, if_true]
        simp only [collapsedB, Bool.and_eq_true]
        refine ⟨?_, ih true⟩
        simp [isWS, isWSCode, headRejects_isWS_collapseAux_true]
    · simp only [collapseAux, hw, if_neg, Bool.false_eq_true, not_false_iff,
        if_false, collapsedB, Bool.and_eq_true]
      exact ⟨by simp [hw], ih false⟩

theorem collapseAux_eq_self (s : List Char) :
    (collapsedB s = true → collapseAux false s = s) ∧
      (collapsedB s = true → headRejects isWS s = true → collapseAux true s = s) := by
  induction s with
  | nil => exact ⟨fun _ => rfl, fun _ _ => rfl⟩
  | cons c t ih =>
    constructor
    · intro h
      by_cases hw : isWS c = true
      · simp only [collapsedB, hw, if_true, Bool.and_eq_true, beq_iff_eq] at h
        obtain ⟨⟨hsp, hhr⟩, hrest⟩ := h
        simp only [collapseAux, hw, if_true]
        rw [ih.2 hrest hhr, hsp]
        simp
      · simp only [collapsedB, hw, if_neg, Bool.false_eq_true, not_false_iff,
          if_false, Bool.true_and] at h
        simp [collapseAux, hw, ih.1 h]
    · intro h hh
      simp only [headRejects, Bool.not_eq_true'] at hh
      simp only [collapsedB, hh, Bool.false_eq_true, if_false, Bool.true_and] at h
      simp [collapseAux, hh, ih.1 h]

theorem collapseWS_eq_self {s : List Char} (h : collapsedB s = true) :
    collapseWS s = s :=
  (collapseAux_eq_self s).1 h

/-- The letter-headed-or-empty property survives `collapseWS`. -/
theorem headLetter_collapseWS {s : List Char}
    (h : headRejects (fun c => !isLetterChar c) s = true) :
    headRejects (fun c => !isLetterChar c) (collapseWS s) = true := by
  cases s with
  | nil => rfl
  | cons c t =>
    simp only [headRejects, Bool.not_not] at h
    have hw : isWS c = false := letter_not_ws h
    simp [collapseWS, collapseAux, hw, headRejects, h]

/-- The letter-headed-or-empty property survives `trimLeft`. -/
theorem headLetter_trimLeft {s : List Char}
    (h : headRejects (fun c => !isLetterChar c) s = true) :
    headRejects (fun c => !isLetterChar c) (trimLeft s) = true := by
  cases s with
  | nil => rfl
  | cons c t =>
    simp only [headRejects, Bool.not_not] at h
    have hw : isWS c = false := letter_not_ws h
    simpa [trimLeft, List.dropWhile_cons, hw, headRejects] using h

theorem headRejects_isWS_trimLeft (s : List Char) :
    headRejects isWS (trimLeft s) = true :=
  headRejects_dropWhile isWS s

theorem headRejects_isWS_reverse_trimRight (s : List Char) :
    headRejects isWS (trimRight s).reverse = true := by
  simpa [trimRight] using headRejects_dropWhile isWS s.reverse

theorem trimLeft_eq_self {s : List Char} (h : headRejects isWS s = true) :
    trimLeft s = s :=
  dropWhile_of_headRejects h

theorem trimRight_eq_self {s : List Char}
    (h : headRejects isWS s.reverse = true) : trimRight s = s := by
  simp [trimRight, dropWhile_of_headRejects h]

/-- Claim C9: the text-cleaning chain of `performAutoTranscription`
(strip leading non-letter characters, collapse repeated whitespace, trim)
is idempotent: `clean (clean x) = clean x` for every string `x`. -/
theorem cleanTranscript_idempotent (s : List Char) :
    cleanTranscript (cleanTranscript s) = cleanTranscript s := by
  have hletter : headRejects (fun c => !isLetterChar c) (cleanTranscript s) = true := by
    have h0 : headRejects (fun c => !isLetterChar c) (dropLeadingNonLetters s) = true :=
      headRejects_dropWhile _ s
    exact headRejects_trimRight (headLetter_trimLeft (headLetter_collapseWS h0))
  have hcol : collapsedB (cleanTranscript s) = true :=
    collapsedB_jsTrim (collapsedB_collapseAux _ false)
  have hL : headRejects isWS (cleanTranscript s) = true :=
    headRejects_trimRight (headRejects_isWS_trimLeft _)
  have hR : headRejects isWS (cleanTranscript s).reverse = true :=
    headRejects_isWS_reverse_trimRight _
  have e1 : dropLeadingNonLetters (cleanTranscript s) = cleanTranscript s :=
    dropWhile_of_headRejects hletter
  have e2 : collapseWS (cleanTranscript s) = cleanTranscript s :=
    collapseWS_eq_self hcol
  have e3 : trimLeft (cleanTranscript s) = cleanTranscript s :=
    trimLeft_eq_self hL
  have e4 : trimRight (cleanTranscript s) = cleanTranscript s :=
    trimRight_eq_self hR
  show jsTrim (collapseWS (dropLeadingNonLetters (cleanTranscript s))) = cleanTranscript s
  rw [e1, e2]
  show trimRight (trimLeft (cleanTranscript s)) = cleanTranscript s
  rw [e3, e4]

/-! ## `speechToTextService.ts` — multi-strategy orchestration

`attemptSpeechRecognition` runs a fixed ordered list of strategies.  Each
strategy is an awaited call that either resolves with a
`TranscriptionResult` or rejects with an error message; the loop keeps the
first result whose `fullText.trim()` is non-empty, advances past empty
results and past errors of non-final strategies, rethrows an error of the
final strategy, and throws a generic error when the loop falls through.
The model takes the list of per-strategy outcomes as input and also
returns how many strategies were executed. -/

namespace SpeechToText

structure TranscriptionSegment where
  text : List Char
  timestamp : Nat
  confidence : Option ℚ
deriving DecidableEq, Repr

structure TranscriptionResult where
  fullText : List Char
  segments : List TranscriptionSegment
  language : String
deriving DecidableEq, Repr

/-- `getRecognitionErrorMessage` of `speechToTextService.ts`. -/
def getRecognitionErrorMessage (error : String) : String :=
  if error = "no-speech" then
    "No speech detected in the audio. Please record clear, audible speech."
  else if error = "audio-capture" then
    "Microphone access denied. Please allow microphone access when prompted."
  else if error = "not-allowed" then
    "Microphone permission denied. Please allow microphone access."
  else if error = "network" then
    "Network error. Please check your internet connection."
  else if error = "service-not-allowed" then
    "Speech recognition service not available. Please try again."
  else if error = "aborted" then
    "Speech recognition was aborted. Please try again."
  else if error = "language-not-supported" then
    "Language not supported. Please ensure you selected Indonesian or English."
  else
    "Speech recognition error: " ++ error ++ ". Please try recording again with clearer speech."

def allStrategiesFailedMsg : String := "All transcription strategies failed"

/-- The strategy loop of `attemptSpeechRecognition`, as a function of the
outcome each strategy would produce, paired with the number of strategies
actually executed. -/
def runStrategies : List (Except String TranscriptionResult) →
    Except String TranscriptionResult × Nat
  | [] => (.error allStrategiesFailedMsg, 0)
  | .ok r :: rest =>
    if (jsTrim r.fullText).isEmpty then
      ((runStrategies rest).1, (runStrategies rest).2 + 1)
    else (.ok r, 1)
  | .error e :: rest =>
    if rest.isEmpty then (.error e, 1)
    else ((runStrategies rest).1, (runStrategies rest).2 + 1)

/-- A strategy outcome lets the loop advance to the next strategy when one
remains: a result with empty trimmed text, or any error. -/
def advanceable : Except String TranscriptionResult → Bool
  | .ok r => (jsTrim r.fullText).isEmpty
  | .error _ => true

/-- The `onend` handler shared shape of `transcribeWithAudioElement`:
reject with a no-speech error when no final transcript accumulated,
resolve with the trimmed transcript otherwise. -/
def audioElementOnEnd (finalTranscript : List Char)
    (segments : List TranscriptionSegment) (language : String) :
    Except String TranscriptionResult :=
  if (jsTrim finalTranscript).isEmpty then
    .error "No speech detected. Please record clear speech and try again."
  else
    .ok { fullText := jsTrim finalTranscript, segments := segments, language := language }

/-- The decode probe at the start of `transcribeWithSpeechPlayback`: it
fails for undecodable audio and for decoded durations under 1 second, but
the surrounding `try`/`catch` only logs the failure. -/
def speechPlaybackProbe (decodedDuration : Option ℚ) : Option String :=
  match decodedDuration with
  | none => some "audio analysis failed"
  | some d =>
    if d < 1 then some "Audio too short for transcription (minimum 1 second required)"
    else none

/-- `transcribeWithSpeechPlayback`: the probe outcome is swallowed, and
`attemptSpeechRecognition` runs regardless of it. -/
def transcribeWithSpeechPlayback (decodedDuration : Option ℚ)
    (strategyOutcomes : List (Except String TranscriptionResult)) :
    Except String TranscriptionResult × Nat :=
  let _probeWarning := speechPlaybackProbe decodedDuration
  runStrategies strategyOutcomes

end SpeechToText

/-! ## Shared speech-engine event model

`SpeechRecognitionResult` models one entry of a Web Speech API result
list: the finality flag and the alternatives (`result[0]` always exists,
so the first alternative is kept apart from the rest). -/

inductive AudioSource
  | microphone
  | system
  | both
deriving DecidableEq, Repr

structure SpeechAlternative where
  transcript : List Char
  confidence : Option ℚ
deriving DecidableEq, Repr

structure SpeechRecognitionResult where
  isFinal : Bool
  firstAlt : SpeechAlternative
  restAlts : List SpeechAlternative
deriving DecidableEq, Repr

/-- One recognition session, as the engine delivers it: result events,
then either an error event or the end event (whichever settles the
promise first wins; later events are ignored). -/
inductive SessionEvent
  | resultEvent (results : List SpeechRecognitionResult)
  | errorEvent (code : String)
  | ended
deriving DecidableEq, Repr

/-- JS `x || d` on an optional number: `undefined` and `0` are falsy. -/
def jsOrQ (x : Option ℚ) (d : ℚ) : ℚ :=
  match x with
  | some c => if c = 0 then d else c
  | none => d

/-! ## `trueOfflineTranscriptionService.ts` -/

namespace TrueOffline

/-- What `decodeAudioData` yields for a decodable clip. -/
structure AudioMetadata where
  duration : ℚ
  sampleRate : Nat
  channels : Nat
deriving DecidableEq, Repr

structure ValidationOutcome where
  isValid : Bool
  reason : Option String
  duration : Option ℚ
  sampleRate : Option Nat
  channels : Option Nat
deriving DecidableEq, Repr

def tooShortReason : String :=
  "Audio too short for transcription (minimum 0.5 seconds required). Please record at least a few seconds of speech."

def tooLongReason : String :=
  "Audio too long for offline processing (maximum 3 minutes). Consider splitting into shorter segments or using an online service."

def tooLargeReason : String :=
  "Audio file too large (maximum 25MB). Try using shorter recordings."

def invalidFormatReason (message : String) : String :=
  "Invalid audio format: " ++ message

/-- `validateAudioFile` of `trueOfflineTranscriptionService.ts`.

Inputs are the decode outcome of the blob (`none` when `decodeAudioData`
throws) and the blob byte size.  The second component records whether the
`AudioContext` allocated for the probe has been closed when the function
returns: in the source, `audioContext.close()` sits after the three
rejection returns and before the success return, and the `catch` branch
does not close either. -/
def validateAudioFile (decoded : Option AudioMetadata) (size : Nat) :
    ValidationOutcome × Bool :=
  match decoded with
  | none =>
    (⟨false, some (invalidFormatReason "Unknown error"), none, none, none⟩, false)
  | some m =>
    if m.duration < 1/2 then
      (⟨false, some tooShortReason, none, none, none⟩, false)
    else if m.duration > 180 then
      (⟨false, some tooLongReason, none, none, none⟩, false)
    else if size > 25000000 then
      (⟨false, some tooLargeReason, none, none, none⟩, false)
    else
      (⟨true, none, some m.duration, some m.sampleRate, some m.channels⟩, true)

/-- `enhanceError`: append audio-source specific context to a message. -/
def enhanceError (message : String) (audioSource : AudioSource) : String :=
  match audioSource with
  | .system =>
    message ++ "\n\n🎵 System Audio Context: Ensure audio was properly captured during recording with \"Share audio\" enabled."
  | .microphone =>
    message ++ "\n\n🎤 Microphone Context: Ensure clear speech was recorded with good audio quality."
  | .both =>
    message ++ "\n\n🎛️ Combined Audio Context: Check if either audio source contains clear speech."

structure VSegment where
  text : List Char
  timestamp : Nat
  confidence : ℚ
  isFinal : Bool
deriving DecidableEq, Repr

/-- Accumulator of the virtual-stream session handlers:
`finalTranscript`, `segments`, `confidenceSum`, `segmentCount`. -/
structure VState where
  finalTranscript : List Char
  segments : List VSegment
  confidenceSum : ℚ
  segmentCount : Nat
deriving DecidableEq, Repr

def initialVState : VState := ⟨[], [], 0, 0⟩

/-- Best-alternative scan of the `onresult` handler: start from
`result[0]` with confidence `result[0].confidence || 0.5` and keep any
later alternative whose (defined) confidence is strictly greater. -/
def pickBest (first : SpeechAlternative) (rest : List SpeechAlternative) :
    SpeechAlternative × ℚ :=
  rest.foldl
    (fun acc alt =>
      match alt.confidence with
      | some c => if acc.2 < c then (alt, c) else acc
      | none => acc)
    (first, jsOrQ first.confidence (1/2))

/-- One result entry of the `onresult` handler of
`transcribeVirtualStream`: final results with non-empty trimmed text
append a segment and update the confidence accumulator; everything else
leaves the state unchanged. -/
def processResult (st : VState) (r : SpeechRecognitionResult) : VState :=
  if r.isFinal && !(jsTrim r.firstAlt.transcript).isEmpty then
    let best := pickBest r.firstAlt r.restAlts
    let transcript := jsTrim best.1.transcript
    if transcript.isEmpty then st
    else
      { finalTranscript := st.finalTranscript ++ transcript ++ [' ']
        segments := st.segments ++
          [{ text := transcript
             timestamp :=
               if st.segmentCount > 0 then
                 (st.segments.getLastD ⟨[], 0, 0, true⟩).timestamp + 2
               else 0
             confidence := best.2
             isFinal := true }]
        confidenceSum := st.confidenceSum + best.2
        segmentCount := st.segmentCount + 1 }
  else st

def processResultEvent (st : VState) (results : List SpeechRecognitionResult) : VState :=
  results.foldl processResult st

structure TrueOfflineResult where
  fullText : List Char
  segments : List VSegment
  language : String
  duration : ℚ
  audioSource : AudioSource
  averageConfidence : ℚ
  hasLowConfidence : Bool
  processingMethod : String
  apiProvider : String
deriving DecidableEq, Repr

/-- The typed failures of the virtual-stream session.  The source rejects
with `createNoSpeechError(audioSource)` on the engine code `no-speech`,
with `createAudioCaptureError()` on `audio-capture`, and with the raw
message string otherwise; only the error kind matters here, not the long
remediation text. -/
inductive TrueOfflineError
  | noSpeech (audioSource : AudioSource)
  | audioCapture
  | other (message : String)
deriving DecidableEq, Repr

/-- The `onend` handler of `transcribeVirtualStream`: it always resolves,
assembling the result from the accumulated state. -/
def assembleResult (st : VState) (language : String) (duration : ℚ)
    (audioSource : AudioSource) : TrueOfflineResult :=
  let averageConfidence :=
    if st.segmentCount > 0 then st.confidenceSum / st.segmentCount else 0
  { fullText := jsTrim st.finalTranscript
    segments := st.segments
    language := language
    duration := duration
    audioSource := audioSource
    averageConfidence := averageConfidence
    hasLowConfidence := averageConfidence < 3/5
    processingMethod := "offline-web-audio"
    apiProvider := "Browser" }

/-- The virtual-stream session: result events accumulate, the first
error event rejects (typed per engine code), the end event resolves.
`none` means the promise never settled within the event list. -/
def runVirtualSession (language : String) (duration : ℚ)
    (audioSource : AudioSource) :
    VState → List SessionEvent → Option (Except TrueOfflineError TrueOfflineResult)
  | _, [] => none
  | st, SessionEvent.resultEvent rs :: rest =>
    runVirtualSession language duration audioSource (processResultEvent st rs) rest
  | _, SessionEvent.errorEvent code :: _ =>
    if code = "no-speech" then some (.error (.noSpeech audioSource))
    else if code = "audio-capture" then some (.error .audioCapture)
    else some (.error (.other ("Speech recognition error: " ++ code)))
  | st, SessionEvent.ended :: _ =>
    some (.ok (assembleResult st language duration audioSource))

/-- `transcribeAudioFile` of `trueOfflineTranscriptionService.ts` up to
the point where the engine is engaged: validation failure throws (and the
catch wraps the message via `enhanceError`) without starting any
recognition; otherwise processing proceeds.  The second component records
whether the engine step ran. -/
def transcribeAudioFile (decoded : Option AudioMetadata) (size : Nat)
    (audioSource : AudioSource)
    (engine : Except TrueOfflineError TrueOfflineResult) :
    Except String TrueOfflineResult × Bool :=
  let validation := (validateAudioFile decoded size).1
  if validation.isValid then
    match engine with
    | .ok r => (.ok r, true)
    | .error _ => (.error "engine failure", true)
  else
    (.error (enhanceError ("Audio validation failed: " ++ validation.reason.getD "undefined") audioSource), false)

end TrueOffline

/-! ## `cleanTranscriptionService.ts` -/

namespace CleanService

structure CleanTranscriptionSegment where
  text : List Char
  timestamp : Nat
  confidence : Option ℚ
  isFinal : Bool
deriving DecidableEq, Repr

structure CleanTranscriptionResult where
  fullText : List Char
  segments : List CleanTranscriptionSegment
  language : String
  duration : ℚ
  audioSource : AudioSource
  averageConfidence : ℚ
  hasLowConfidence : Bool
deriving DecidableEq, Repr

/-- `calculateAverageConfidenceFromSegments` (and the identical
`calculateAverageConfidence` over the instance state): 0 for the empty
list, otherwise the `reduce` sum of `confidence || 0` divided by the
length. -/
def calculateAverageConfidenceFromSegments
    (segments : List CleanTranscriptionSegment) : ℚ :=
  if segments.length = 0 then 0
  else (segments.foldl (fun sum s => sum + s.confidence.getD 0) 0) / segments.length

/-- Best-alternative scan of `processRecognitionResults`: starts from
`result[0]` with confidence `result[0].confidence || 0` and keeps any
later alternative with strictly greater (defined) confidence. -/
def pickBestZero (first : SpeechAlternative) (rest : List SpeechAlternative) :
    SpeechAlternative × ℚ :=
  rest.foldl
    (fun acc alt =>
      match alt.confidence with
      | some c => if acc.2 < c then (alt, c) else acc
      | none => acc)
    (first, jsOrQ first.confidence 0)

/-- One result entry of `processRecognitionResults`: every final result
appends a segment (text trimmed, no emptiness gate) and extends the
transcript with the text plus a space; non-final results are ignored
entirely.  Wall-clock timestamps are outside the model and recorded
as 0. -/
def processOne (st : List Char × List CleanTranscriptionSegment)
    (r : SpeechRecognitionResult) : List Char × List CleanTranscriptionSegment :=
  if r.isFinal then
    let best := pickBestZero r.firstAlt r.restAlts
    let seg : CleanTranscriptionSegment :=
      { text := jsTrim best.1.transcript
        timestamp := 0
        confidence := some best.2
        isFinal := true }
    (st.1 ++ seg.text ++ [' '], st.2 ++ [seg])
  else st

/-- `processRecognitionResults` over the result entries of one event. -/
def processRecognitionResults (st : List Char × List CleanTranscriptionSegment)
    (results : List SpeechRecognitionResult) :
    List Char × List CleanTranscriptionSegment :=
  results.foldl processOne st

/-- The `onend` handler of `transcribeWithDirectPlayback`: assemble the
result, with average confidence from the segments and the low-confidence
flag at threshold 0.7. -/
def directPlaybackOnEnd (finalTranscript : List Char)
    (segments : List CleanTranscriptionSegment) (language : String)
    (audioSource : AudioSource) : CleanTranscriptionResult :=
  let averageConfidence := calculateAverageConfidenceFromSegments segments
  { fullText := jsTrim finalTranscript
    segments := segments
    language := language
    duration := 0
    audioSource := audioSource
    averageConfidence := averageConfidence
    hasLowConfidence := averageConfidence < 7/10 }

/-- `validateAudio` of `cleanTranscriptionService.ts`.  Second component:
whether no probe `AudioContext` remains open at return (the source closes
it right after a successful decode, before the duration checks, but the
decode-failure `catch` leaves it open). -/
def validateAudio (size : Nat) (decodedDuration : Option ℚ) :
    (Bool × Option String) × Bool :=
  if size = 0 then ((false, some "Audio file is empty"), true)
  else if size < 1024 then
    ((false, some "Audio file too small (minimum 1KB required)"), true)
  else
    match decodedDuration with
    | none =>
      ((false, some "Invalid audio format: Unknown error"), false)
    | some d =>
      if d < 1/2 then
        ((false, some "Audio too short (minimum 0.5 seconds required)"), true)
      else if d > 600 then
        ((false, some "Audio too long (maximum 10 minutes allowed)"), true)
      else ((true, none), true)

/-- `selectOptimalStrategy`: direct playback for high-quality audio,
standard processing otherwise. -/
def selectOptimalStrategy (_audioSource : AudioSource) (isHighQuality : Bool) :
    String :=
  if isHighQuality then "direct-playback" else "standard-processing"

section StrategyDispatch

variable {Blob Opts : Type}

/-- `transcribeWithEnhancedProcessing`: delegates to direct playback. -/
def transcribeWithEnhancedProcessing
    (direct : Blob → AudioSource → Opts → Except String CleanTranscriptionResult)
    (audioBlob : Blob) (audioSource : AudioSource) (options : Opts) :
    Except String CleanTranscriptionResult :=
  direct audioBlob audioSource options

/-- `transcribeWithStandardProcessing`: delegates to direct playback. -/
def transcribeWithStandardProcessing
    (direct : Blob → AudioSource → Opts → Except String CleanTranscriptionResult)
    (audioBlob : Blob) (audioSource : AudioSource) (options : Opts) :
    Except String CleanTranscriptionResult :=
  direct audioBlob audioSource options

/-- `transcribeWithAdaptiveProcessing`: direct playback first, falling
back to standard processing on failure. -/
def transcribeWithAdaptiveProcessing
    (direct : Blob → AudioSource → Opts → Except String CleanTranscriptionResult)
    (audioBlob : Blob) (audioSource : AudioSource) (options : Opts) :
    Except String CleanTranscriptionResult :=
  match direct audioBlob audioSource options with
  | .ok r => .ok r
  | .error _ => transcribeWithStandardProcessing direct audioBlob audioSource options

/-- `executeTranscriptionStrategy`: dispatch on the strategy name, with
`standard-processing` as the `default` branch.  `direct` stands for
`transcribeWithDirectPlayback`, the one strategy that actually drives the
speech engine; it is a parameter because its body only wraps engine
callbacks already modelled separately. -/
def executeTranscriptionStrategy
    (direct : Blob → AudioSource → Opts → Except String CleanTranscriptionResult)
    (audioBlob : Blob) (audioSource : AudioSource) (strategy : String)
    (options : Opts) : Except String CleanTranscriptionResult :=
  if strategy = "direct-playback" then
    direct audioBlob audioSource options
  else if strategy = "enhanced-processing" then
    transcribeWithEnhancedProcessing direct audioBlob audioSource options
  else if strategy = "adaptive-processing" then
    transcribeWithAdaptiveProcessing direct audioBlob audioSource options
  else
    transcribeWithStandardProcessing direct audioBlob audioSource options

end StrategyDispatch

end CleanService

/-! ## `whisperTranscriptionService.ts` — audio validation -/

namespace Whisper

/-- `getAudioDuration`: the decoded duration, or 0 when decoding fails
(the `catch` returns 0). -/
def getAudioDuration (decodedDuration : Option ℚ) : ℚ :=
  decodedDuration.getD 0

/-- `validateAudioFile` of `whisperTranscriptionService.ts`: duration
checks (0.5s minimum, 600s maximum) before the 25MB size check. -/
def validateAudioFile (decodedDuration : Option ℚ) (size : Nat) :
    Bool × Option String :=
  let duration := getAudioDuration decodedDuration
  if duration < 1/2 then
    (false, some "Audio too short for transcription (minimum 0.5 seconds required). Please record at least a few seconds of speech.")
  else if duration > 600 then
    (false, some "Audio too long for single API call (maximum 10 minutes). Consider splitting into shorter segments or using real-time transcription during recording.")
  else if size > 25000000 then
    (false, some "Audio file too large (maximum 25MB). Try using shorter recordings.")
  else (true, none)

end Whisper

/-! ## Orchestration properties (`speechToTextService.ts`) -/

namespace SpeechToText

/-- Sample results used to instantiate the orchestration theorems. -/
def emptyDemoResult : TranscriptionResult :=
  { fullText := [' '], segments := [], language := "id-ID" }

def notesDemoResult : TranscriptionResult :=
  { fullText := "meeting notes".toList, segments := [], language := "id-ID" }

/-- An advanceable outcome followed by at least one more strategy makes
the loop recurse, counting one more executed attempt. -/
theorem runStrategies_advance (o : Except String TranscriptionResult)
    (rest : List (Except String TranscriptionResult))
    (h : advanceable o = true) (hne : rest ≠ []) :
    runStrategies (o :: rest) = ((runStrategies rest).1, (runStrategies rest).2 + 1) := by
  cases o with
  | ok r =>
    simp only [advanceable] at h
    simp [runStrategies, h]
  | error e =>
    have hr : rest.isEmpty = false := by
      cases rest with
      | nil => exact absurd rfl hne
      | cons a l => rfl
    simp [runStrategies, hr]

end SpeechToText

/-- Claim C3: the orchestrator of `attemptSpeechRecognition` executes the
strategies strictly in order; it returns the result of the first strategy
whose text is non-empty after trimming without executing the later ones;
a strategy with empty text or an error advances the loop when strategies
remain; when the list is exhausted, the error of a failing final strategy
is rethrown, and a final strategy with empty text yields the generic
all-strategies-failed error. -/
theorem attemptSpeechRecognition_policy :
    (∀ (pre : List (Except String SpeechToText.TranscriptionResult))
        (r : SpeechToText.TranscriptionResult)
        (post : List (Except String SpeechToText.TranscriptionResult)),
      (∀ o ∈ pre, SpeechToText.advanceable o = true) →
      (jsTrim r.fullText).isEmpty = false →
      SpeechToText.runStrategies (pre ++ .ok r :: post) = (.ok r, pre.length + 1))
    ∧ (∀ (pre : List (Except String SpeechToText.TranscriptionResult)) (e : String),
      (∀ o ∈ pre, SpeechToText.advanceable o = true) →
      SpeechToText.runStrategies (pre ++ [.error e]) = (.error e, pre.length + 1))
    ∧ (∀ (pre : List (Except String SpeechToText.TranscriptionResult))
        (r : SpeechToText.TranscriptionResult),
      (∀ o ∈ pre, SpeechToText.advanceable o = true) →
      (jsTrim r.fullText).isEmpty = true →
      SpeechToText.runStrategies (pre ++ [.ok r]) =
        (.error SpeechToText.allStrategiesFailedMsg, pre.length + 1)) := by
  refine ⟨?_, ?_, ?_⟩
  · intro pre r post hadv hr
    induction pre with
    | nil => simp [SpeechToText.runStrategies, hr]
    | cons o pre' ih =>
      rw [List.cons_append,
        SpeechToText.runStrategies_advance o _ (hadv o (by simp)) (by simp),
        ih (fun o ho => hadv o (by simp [ho]))]
      simp [Nat.add_comm]
  · intro pre e hadv
    induction pre with
    | nil => simp [SpeechToText.runStrategies]
    | cons o pre' ih =>
      rw [List.cons_append,
        SpeechToText.runStrategies_advance o _ (hadv o (by simp)) (by simp),
        ih (fun o ho => hadv o (by simp [ho]))]
      simp [Nat.add_comm]
  · intro pre r hadv hr
    induction pre with
    | nil => simp [SpeechToText.runStrategies, hr]
    | cons o pre' ih =>
      rw [List.cons_append,
        SpeechToText.runStrategies_advance o _ (hadv o (by simp)) (by simp),
        ih (fun o ho => hadv o (by simp [ho]))]
      simp [Nat.add_comm]

/-- Witness for C3 at the spec example shape: an empty first attempt, a
recoverable second failure, and a successful third strategy. -/
theorem attemptSpeechRecognition_policy_witness :
    SpeechToText.runStrategies
      [.ok SpeechToText.emptyDemoResult, .error "no-speech",
       .ok SpeechToText.notesDemoResult] = (.ok SpeechToText.notesDemoResult, 3) :=
  attemptSpeechRecognition_policy.1
    [.ok SpeechToText.emptyDemoResult, .error "no-speech"]
    SpeechToText.notesDemoResult [] (by decide) (by decide)

/-- Claim C1 (counterexample): when strategy 1 rejects with the
permission error (`not-allowed`), the orchestrator does not fail: it
executes strategy 2 as well (two attempts executed) and returns its
result. -/
theorem permission_error_does_not_abort :
    SpeechToText.runStrategies
      [.error (SpeechToText.getRecognitionErrorMessage "not-allowed"),
       .ok SpeechToText.notesDemoResult] = (.ok SpeechToText.notesDemoResult, 2) := by
  rfl

/-- Claim C1 (amended): the loop in `attemptSpeechRecognition` treats the
permission error like every other strategy failure: with strategies
remaining it advances to the next one, and it fails immediately with the
permission error only when the raising strategy is the last of the
list. -/
theorem permission_error_advances_like_any_failure :
    (∀ rest, rest ≠ [] →
      SpeechToText.runStrategies
          (.error (SpeechToText.getRecognitionErrorMessage "not-allowed") :: rest) =
        ((SpeechToText.runStrategies rest).1, (SpeechToText.runStrategies rest).2 + 1))
    ∧ SpeechToText.runStrategies
        [.error (SpeechToText.getRecognitionErrorMessage "not-allowed")] =
      (.error (SpeechToText.getRecognitionErrorMessage "not-allowed"), 1) := by
  constructor
  · intro rest hne
    exact SpeechToText.runStrategies_advance _ rest rfl hne
  · rfl

/-- Witness for the amended C1: with a successful strategy remaining, the
run after the permission error equals the run of the remaining list. -/
theorem permission_error_advances_witness :
    SpeechToText.runStrategies
        [.error (SpeechToText.getRecognitionErrorMessage "not-allowed"),
         .ok SpeechToText.notesDemoResult] =
      ((SpeechToText.runStrategies [.ok SpeechToText.notesDemoResult]).1,
       (SpeechToText.runStrategies [.ok SpeechToText.notesDemoResult]).2 + 1) :=
  permission_error_advances_like_any_failure.1 [.ok SpeechToText.notesDemoResult] (by simp)

/-! ## No-speech handling (claim C2) -/

/-- Claim C2 (counterexample): in `trueOfflineTranscriptionService`, a
session that ends (without an error event) having produced no final
segment resolves as a success whose `fullText` is the empty string — the
empty session is not turned into a typed failure by the service itself. -/
theorem empty_session_resolves_successfully :
    TrueOffline.runVirtualSession "id-ID" 10 AudioSource.microphone
        TrueOffline.initialVState [SessionEvent.ended] =
      some (.ok (TrueOffline.assembleResult TrueOffline.initialVState "id-ID" 10
        AudioSource.microphone))
    ∧ (TrueOffline.assembleResult TrueOffline.initialVState "id-ID" 10
        AudioSource.microphone).fullText = []
    ∧ (TrueOffline.assembleResult TrueOffline.initialVState "id-ID" 10
        AudioSource.microphone).segments = [] :=
  ⟨rfl, rfl, rfl⟩

/-- Claim C2 (amended): the playback strategies of
`speechToTextService.ts` do reject a session whose final transcript is
empty with a no-speech error; `trueOfflineTranscriptionService` rejects
with its typed no-speech failure only when the engine raises the
`no-speech` error event, while the end event always resolves with the
assembled result — even when no final segments exist, leaving the
empty-success result for the caller to detect. -/
theorem no_speech_is_typed_failure :
    (∀ (finalTranscript : List Char)
        (segments : List SpeechToText.TranscriptionSegment) (language : String),
      (jsTrim finalTranscript).isEmpty = true →
      SpeechToText.audioElementOnEnd finalTranscript segments language =
        .error "No speech detected. Please record clear speech and try again.")
    ∧ (∀ (st : TrueOffline.VState) (language : String) (duration : ℚ)
        (audioSource : AudioSource) (rest : List SessionEvent),
      TrueOffline.runVirtualSession language duration audioSource st
          (SessionEvent.errorEvent "no-speech" :: rest) =
        some (.error (.noSpeech audioSource)))
    ∧ (∀ (st : TrueOffline.VState) (language : String) (duration : ℚ)
        (audioSource : AudioSource) (rest : List SessionEvent),
      TrueOffline.runVirtualSession language duration audioSource st
          (SessionEvent.ended :: rest) =
        some (.ok (TrueOffline.assembleResult st language duration audioSource))) := by
  refine ⟨?_, ?_, ?_⟩
  · intro ft segs lang h
    simp [SpeechToText.audioElementOnEnd, h]
  · intro st lang dur src rest
    rfl
  · intro st lang dur src rest
    rfl

/-- Witness for the amended C2: a whitespace-only final transcript is
rejected by the audio-element strategy. -/
theorem no_speech_is_typed_failure_witness :
    SpeechToText.audioElementOnEnd [' '] [] "id-ID" =
      .error "No speech detected. Please record clear speech and try again." :=
  no_speech_is_typed_failure.1 [' '] [] "id-ID" (by decide)

/-! ## Short-clip validation (claim C4) -/

/-- Claim C4 (counterexample): in `speechToTextService.ts`, the duration
probe of `transcribeWithSpeechPlayback` rejects a 0.3-second clip (its
threshold is even 1 second), but the failure is swallowed by the
surrounding catch and a recognition strategy is executed anyway: one
attempt runs and the orchestration can even succeed. -/
theorem short_clip_still_reaches_engine :
    SpeechToText.speechPlaybackProbe (some (3/10)) =
        some "Audio too short for transcription (minimum 1 second required)"
    ∧ SpeechToText.transcribeWithSpeechPlayback (some (3/10))
        [.ok SpeechToText.notesDemoResult] = (.ok SpeechToText.notesDemoResult, 1)
    ∧ ((3 : ℚ)/10 < 1/2) := by
  refine ⟨?_, rfl, by norm_num⟩
  norm_num [SpeechToText.speechPlaybackProbe]

/-- Claim C4 (amended): in `trueOfflineTranscriptionService.ts` a clip
whose decoded duration is under 0.5 seconds is rejected by
`validateAudioFile` with the too-short reason, and `transcribeAudioFile`
terminates at validation without engaging the speech engine. -/
theorem validation_stops_short_clips :
    ∀ (m : TrueOffline.AudioMetadata) (size : Nat) (audioSource : AudioSource)
      (engine : Except TrueOffline.TrueOfflineError TrueOffline.TrueOfflineResult),
      m.duration < 1/2 →
      ((TrueOffline.validateAudioFile (some m) size).1.isValid = false
       ∧ (TrueOffline.validateAudioFile (some m) size).1.reason =
           some TrueOffline.tooShortReason
       ∧ (TrueOffline.transcribeAudioFile (some m) size audioSource engine).2 = false) := by
  intro m size src engine h
  have h2 : m.duration < 2⁻¹ := by rw [← one_div]; exact h
  refine ⟨?_, ?_, ?_⟩ <;>
    simp [TrueOffline.validateAudioFile, TrueOffline.transcribeAudioFile, h2]

/-- Witness for the amended C4 at a 0.3-second clip. -/
theorem validation_stops_short_clips_witness :
    ((TrueOffline.validateAudioFile (some ⟨3/10, 48000, 1⟩) 1000).1.isValid = false
     ∧ (TrueOffline.validateAudioFile (some ⟨3/10, 48000, 1⟩) 1000).1.reason =
         some TrueOffline.tooShortReason
     ∧ (TrueOffline.transcribeAudioFile (some ⟨3/10, 48000, 1⟩) 1000
         AudioSource.microphone (.error .audioCapture)).2 = false) :=
  validation_stops_short_clips ⟨3/10, 48000, 1⟩ 1000 AudioSource.microphone
    (.error .audioCapture) (by norm_num)

/-! ## Resource release on validation exits (claim C5) -/

/-- Claim C5 (evaluation at the failing inputs): the probe `AudioContext`
of `TrueOffline.validateAudioFile` is released only on the success path —
on the TooShort, TooLong and TooLarge rejections and on the decode
failure it remains open when the function returns; in
`CleanService.validateAudio` the context is closed before the duration
checks but leaks on the decode failure. -/
theorem validate_leaks_audio_context_on_rejection :
    (TrueOffline.validateAudioFile (some ⟨3/10, 48000, 1⟩) 1000).2 = false
    ∧ (TrueOffline.validateAudioFile (some ⟨200, 48000, 1⟩) 1000).2 = false
    ∧ (TrueOffline.validateAudioFile (some ⟨10, 48000, 1⟩) 26000000).2 = false
    ∧ (TrueOffline.validateAudioFile none 1000).2 = false
    ∧ (TrueOffline.validateAudioFile (some ⟨10, 48000, 1⟩) 1000).2 = true
    ∧ (CleanService.validateAudio 5000 none).2 = false
    ∧ (CleanService.validateAudio 5000 (some (3/10))).2 = true := by
  refine ⟨?_, ?_, ?_, rfl, ?_, rfl, ?_⟩ <;>
    norm_num [TrueOffline.validateAudioFile, CleanService.validateAudio]

/-! ## Size ceiling (claim C6) -/

/-- Claim C6 (counterexample): a clip that is both shorter than 0.5
seconds and larger than 25MB is rejected as too short, not as too large —
the size ceiling does not apply regardless of other characteristics. -/
theorem size_check_shadowed_by_duration :
    (TrueOffline.validateAudioFile (some ⟨3/10, 48000, 1⟩) 26000000).1.reason =
        some TrueOffline.tooShortReason
    ∧ (TrueOffline.validateAudioFile (some ⟨3/10, 48000, 1⟩) 26000000).1.reason ≠
        some TrueOffline.tooLargeReason
    ∧ 26000000 > 25000000 := by
  have h1 : (TrueOffline.validateAudioFile (some ⟨3/10, 48000, 1⟩) 26000000).1.reason =
      some TrueOffline.tooShortReason := by
    norm_num [TrueOffline.validateAudioFile]
  refine ⟨h1, ?_, by norm_num⟩
  rw [h1]
  simp only [ne_eq, Option.some.injEq]
  decide

/-- Claim C6 (amended): `validateAudioFile` returns the TooLarge
rejection for clips over 25MB provided the clip decodes and passes the
duration checks that precede the size check (at least 0.5s and at most
180s in the offline service, at most 600s in the whisper service). -/
theorem size_ceiling_after_duration_checks :
    (∀ (m : TrueOffline.AudioMetadata) (size : Nat),
      size > 25000000 → ¬(m.duration < 1/2) → ¬(m.duration > 180) →
      (TrueOffline.validateAudioFile (some m) size).1 =
        ⟨false, some TrueOffline.tooLargeReason, none, none, none⟩)
    ∧ (∀ (d : ℚ) (size : Nat),
      size > 25000000 → ¬(d < 1/2) → ¬(d > 600) →
      Whisper.validateAudioFile (some d) size =
        (false, some "Audio file too large (maximum 25MB). Try using shorter recordings.")) := by
  constructor
  · intro m size hsize hshort hlong
    have hshort2 : ¬(m.duration < 2⁻¹) := by rw [← one_div]; exact hshort
    simp [TrueOffline.validateAudioFile, hshort2, hlong, hsize]
  · intro d size hsize hshort hlong
    have hshort2 : ¬(d < 2⁻¹) := by rw [← one_div]; exact hshort
    simp [Whisper.validateAudioFile, Whisper.getAudioDuration, hshort2, hlong, hsize]

/-- Witness for the amended C6: a 10-second, 26MB clip is rejected as too
large by both validators. -/
theorem size_ceiling_after_duration_checks_witness :
    ((TrueOffline.validateAudioFile (some ⟨10, 48000, 1⟩) 26000000).1 =
        ⟨false, some TrueOffline.tooLargeReason, none, none, none⟩
     ∧ Whisper.validateAudioFile (some 10) 26000000 =
        (false, some "Audio file too large (maximum 25MB). Try using shorter recordings.")) :=
  ⟨size_ceiling_after_duration_checks.1 ⟨10, 48000, 1⟩ 26000000 (by norm_num)
      (by norm_num) (by norm_num),
   size_ceiling_after_duration_checks.2 10 26000000 (by norm_num) (by norm_num)
      (by norm_num)⟩

/-! ## Average confidence (claim C7) -/

theorem confidence_foldl_eq_sum
    (segs : List CleanService.CleanTranscriptionSegment) (a : ℚ) :
    segs.foldl (fun sum s => sum + s.confidence.getD 0) a =
      a + ((segs.map (fun s => s.confidence.getD 0)).sum) := by
  induction segs generalizing a with
  | nil => simp
  | cons s t ih => simp [ih, add_assoc]

namespace TrueOffline

/-- The `onresult` accumulator keeps `confidenceSum` equal to the sum of
the pushed segments' confidences and `segmentCount` equal to their
number. -/
theorem processResult_inv (st : VState) (r : SpeechRecognitionResult)
    (h1 : st.confidenceSum = ((st.segments.map (fun s => s.confidence)).sum))
    (h2 : st.segmentCount = st.segments.length) :
    (processResult st r).confidenceSum =
        (((processResult st r).segments.map (fun s => s.confidence)).sum)
      ∧ (processResult st r).segmentCount = (processResult st r).segments.length := by
  unfold processResult
  by_cases hf : (r.isFinal && !(jsTrim r.firstAlt.transcript).isEmpty) = true
  · simp only [hf, if_true]
    by_cases he : (jsTrim (pickBest r.firstAlt r.restAlts).1.transcript).isEmpty = true
    · simp only [he, if_true]
      exact ⟨h1, h2⟩
    · simp only [he, if_false]
      constructor
      · simp [h1]
      · simp [h2]
  · simp only [hf, if_false]
    exact ⟨h1, h2⟩

theorem processResultEvent_inv (rs : List SpeechRecognitionResult) :
    ∀ st : VState,
      st.confidenceSum = ((st.segments.map (fun s => s.confidence)).sum) →
      st.segmentCount = st.segments.length →
      ((processResultEvent st rs).confidenceSum =
          (((processResultEvent st rs).segments.map (fun s => s.confidence)).sum)
        ∧ (processResultEvent st rs).segmentCount =
            (processResultEvent st rs).segments.length) := by
  induction rs with
  | nil =>
    intro st h1 h2
    exact ⟨h1, h2⟩
  | cons r rs' ih =>
    intro st h1 h2
    have h := processResult_inv st r h1 h2
    exact ih (processResult st r) h.1 h.2

/-- The accumulator state after a list of `onresult` events, starting
from the fresh session state. -/
def sessionStateAfter (rss : List (List SpeechRecognitionResult)) : VState :=
  rss.foldl processResultEvent initialVState

theorem sessionStateAfter_inv (rss : List (List SpeechRecognitionResult)) :
    (sessionStateAfter rss).confidenceSum =
        (((sessionStateAfter rss).segments.map (fun s => s.confidence)).sum)
      ∧ (sessionStateAfter rss).segmentCount =
          (sessionStateAfter rss).segments.length := by
  suffices h : ∀ (l : List (List SpeechRecognitionResult)) (st : VState),
      st.confidenceSum = ((st.segments.map (fun s => s.confidence)).sum) →
      st.segmentCount = st.segments.length →
      ((l.foldl processResultEvent st).confidenceSum =
          (((l.foldl processResultEvent st).segments.map (fun s => s.confidence)).sum)
        ∧ (l.foldl processResultEvent st).segmentCount =
            (l.foldl processResultEvent st).segments.length) by
    exact h rss initialVState rfl rfl
  intro l
  induction l with
  | nil =>
    intro st h1 h2
    exact ⟨h1, h2⟩
  | cons rs l' ih =>
    intro st h1 h2
    have h := processResultEvent_inv rs st h1 h2
    exact ih (processResultEvent st rs) h.1 h.2

end TrueOffline

/-- Claim C7: the reported average confidence is the arithmetic mean of
the final segments' confidences — 0 for the empty list — both in
`calculateAverageConfidenceFromSegments` of the clean service and in the
assembled result of the virtual-stream session; the low-confidence flag
is exactly `average < threshold` (0.7 in the clean service); and for
confidences `[0.9, 0.7]` the average is 0.8 and the result is not flagged
low-confidence. -/
theorem average_confidence_is_mean :
    (CleanService.calculateAverageConfidenceFromSegments [] = 0)
    ∧ (∀ segs : List CleanService.CleanTranscriptionSegment, segs ≠ [] →
        CleanService.calculateAverageConfidenceFromSegments segs =
          ((segs.map (fun s => s.confidence.getD 0)).sum) / segs.length)
    ∧ (∀ (finalTranscript : List Char)
        (segs : List CleanService.CleanTranscriptionSegment)
        (language : String) (audioSource : AudioSource),
        (CleanService.directPlaybackOnEnd finalTranscript segs language
            audioSource).hasLowConfidence =
          decide (CleanService.calculateAverageConfidenceFromSegments segs < 7/10))
    ∧ (∀ (rss : List (List SpeechRecognitionResult)) (language : String)
        (duration : ℚ) (audioSource : AudioSource),
        (TrueOffline.assembleResult (TrueOffline.sessionStateAfter rss) language
            duration audioSource).averageConfidence =
          (if (TrueOffline.sessionStateAfter rss).segments.length = 0 then 0
           else (((TrueOffline.sessionStateAfter rss).segments.map
              (fun s => s.confidence)).sum) /
              (TrueOffline.sessionStateAfter rss).segments.length))
    ∧ (CleanService.calculateAverageConfidenceFromSegments
          [⟨"hello".toList, 0, some (9/10), true⟩,
           ⟨"world".toList, 0, some (7/10), true⟩] = 4/5
       ∧ (CleanService.directPlaybackOnEnd "hello world".toList
            [⟨"hello".toList, 0, some (9/10), true⟩,
             ⟨"world".toList, 0, some (7/10), true⟩]
            "id-ID" AudioSource.microphone).hasLowConfidence = false) := by
  refine ⟨rfl, ?_, ?_, ?_, ?_, ?_⟩
  · intro segs h
    have hl : segs.length ≠ 0 := by simpa [List.length_eq_zero] using h
    simp [CleanService.calculateAverageConfidenceFromSegments, hl,
      confidence_foldl_eq_sum]
  · intro ft segs lang src
    rfl
  · intro rss lang dur src
    obtain ⟨h1, h2⟩ := TrueOffline.sessionStateAfter_inv rss
    simp only [TrueOffline.assembleResult, h1, h2]
    by_cases h : (TrueOffline.sessionStateAfter rss).segments.length = 0
    · simp [h]
    · have hpos : 0 < (TrueOffline.sessionStateAfter rss).segments.length :=
        Nat.pos_of_ne_zero h
      simp [h, hpos]
  · norm_num [CleanService.calculateAverageConfidenceFromSegments]
  · norm_num [CleanService.directPlaybackOnEnd,
      CleanService.calculateAverageConfidenceFromSegments]

/-- Witness for C7: the mean formula applied to a concrete two-segment
list. -/
theorem average_confidence_is_mean_witness :
    CleanService.calculateAverageConfidenceFromSegments
        [⟨"a".toList, 0, some (1/2), true⟩, ⟨"b".toList, 0, none, true⟩] =
      ((([⟨"a".toList, 0, some (1/2), true⟩,
          ⟨"b".toList, 0, none, true⟩] : List CleanService.CleanTranscriptionSegment).map
        (fun s => s.confidence.getD 0)).sum) /
      ([⟨"a".toList, 0, some (1/2), true⟩,
        ⟨"b".toList, 0, none, true⟩] : List CleanService.CleanTranscriptionSegment).length :=
  average_confidence_is_mean.2.1
    [⟨"a".toList, 0, some (1/2), true⟩, ⟨"b".toList, 0, none, true⟩] (by simp)

/-! ## Full-text assembly (claim C8) -/

/-- The spec's formula for C8, following its words: the trimmed,
whitespace-normalized concatenation of the segment texts in arrival
order.  Used only to compare the code's assembly against the spec. -/
def specNormalizedConcat (texts : List (List Char)) : List Char :=
  jsTrim (collapseWS texts.flatten)

/-- `processOne` leaves the state unchanged on non-final results. -/
theorem processOne_not_final {st : List Char × List CleanService.CleanTranscriptionSegment}
    {r : SpeechRecognitionResult} (h : r.isFinal = false) :
    CleanService.processOne st r = st := by
  simp [CleanService.processOne, h]

/-- The transcript accumulator always equals the concatenation of the
stored segment texts, each followed by one space. -/
theorem processRecognitionResults_transcript
    (rs : List SpeechRecognitionResult) :
    ∀ st : List Char × List CleanService.CleanTranscriptionSegment,
      st.1 = (st.2.map (fun s => s.text ++ [' '])).flatten →
      (CleanService.processRecognitionResults st rs).1 =
        ((CleanService.processRecognitionResults st rs).2.map
          (fun s => s.text ++ [' '])).flatten := by
  induction rs with
  | nil =>
    intro st h
    exact h
  | cons r rs' ih =>
    intro st h
    refine ih (CleanService.processOne st r) ?_
    by_cases hf : r.isFinal = true
    · simp only [CleanService.processOne, hf, if_true]
      simp [h]
    · rw [processOne_not_final (Bool.not_eq_true r.isFinal ▸ hf)]
      exact h

/-- Interim results are invisible: processing a result list equals
processing only its final entries. -/
theorem processRecognitionResults_filter_final
    (rs : List SpeechRecognitionResult) :
    ∀ st : List Char × List CleanService.CleanTranscriptionSegment,
      CleanService.processRecognitionResults st rs =
        CleanService.processRecognitionResults st (rs.filter (fun r => r.isFinal)) := by
  induction rs with
  | nil =>
    intro st
    rfl
  | cons r rs' ih =>
    intro st
    by_cases hf : r.isFinal = true
    · simp only [List.filter_cons, hf, if_true]
      exact ih (CleanService.processOne st r)
    · have hf' : r.isFinal = false := by
        cases hb : r.isFinal
        · rfl
        · exact absurd hb hf
      calc CleanService.processRecognitionResults st (r :: rs')
          = CleanService.processRecognitionResults (CleanService.processOne st r) rs' := rfl
        _ = CleanService.processRecognitionResults st rs' := by
            rw [processOne_not_final hf']
        _ = CleanService.processRecognitionResults st
              ((r :: rs').filter (fun r => r.isFinal)) := by
            rw [ih st]
            simp [List.filter_cons, hf']

/-- Claim C8 (counterexample): one final result whose transcript contains
an internal double space.  The assembled `fullText` keeps the double
space, while the whitespace-normalized concatenation of the segment texts
collapses it — so `fullText` is not the whitespace-normalized
concatenation. -/
theorem fulltext_not_ws_normalized :
    jsTrim (CleanService.processRecognitionResults ([], [])
        [⟨true, ⟨"hello  world".toList, none⟩, []⟩]).1 = "hello  world".toList
    ∧ specNormalizedConcat
        ((CleanService.processRecognitionResults ([], [])
          [⟨true, ⟨"hello  world".toList, none⟩, []⟩]).2.map (fun s => s.text)) =
        "hello world".toList
    ∧ "hello  world".toList ≠ "hello world".toList := by
  refine ⟨by decide, by decide, by decide⟩

/-! The second handler of C8: the `onresult` callback installed by
`setupRecognition` in `speechToTextService.ts` (real-time path).  It
appends the raw, untrimmed transcript of each final result plus one
space to `finalTranscript`, pushes an untrimmed segment with confidence
`result[0].confidence || 1.0`, and collects non-final transcripts only
into the per-event `interimTranscript`; `stopRealTimeTranscription`
returns the trimmed transcript. -/

namespace SpeechToText

/-- One pass of the `onresult` loop of `setupRecognition`, threading
`(finalTranscript, segments, interim-of-this-event)`.  Wall-clock
timestamps are outside the model and recorded as 0. -/
def setupFold :
    List Char × List TranscriptionSegment × List Char →
    List SpeechRecognitionResult →
    List Char × List TranscriptionSegment × List Char
  | acc, [] => acc
  | acc, r :: rest =>
    if r.isFinal then
      setupFold
        (acc.1 ++ r.firstAlt.transcript ++ [' '],
         acc.2.1 ++ [{ text := r.firstAlt.transcript, timestamp := 0,
                       confidence := some (jsOrQ r.firstAlt.confidence 1) }],
         acc.2.2) rest
    else setupFold (acc.1, acc.2.1, acc.2.2 ++ r.firstAlt.transcript) rest

/-- The mutable recognition state of `SpeechToTextService`. -/
structure RState where
  finalTranscript : List Char
  segments : List TranscriptionSegment
  interimTranscript : List Char
deriving Repr

/-- The `onresult` handler for one event: the event's interim transcript
starts empty and replaces the stored one at the end. -/
def setupOnResultEvent (st : RState) (results : List SpeechRecognitionResult) :
    RState :=
  let f := setupFold (st.finalTranscript, st.segments, []) results
  { finalTranscript := f.1, segments := f.2.1, interimTranscript := f.2.2 }

/-- The state after a list of `onresult` events, from the reset state. -/
def setupSession (events : List (List SpeechRecognitionResult)) : RState :=
  events.foldl setupOnResultEvent ⟨[], [], []⟩

/-- `stopRealTimeTranscription`: the trimmed final transcript plus the
accumulated segment list. -/
def stopRealTimeTranscription (st : RState) (language : String) :
    TranscriptionResult :=
  { fullText := jsTrim st.finalTranscript, segments := st.segments,
    language := language }

/-- The accumulated transcript always equals the concatenation of the
stored (untrimmed) segment texts, each followed by one space. -/
theorem setupFold_transcript (rs : List SpeechRecognitionResult) :
    ∀ (ft : List Char) (segs : List TranscriptionSegment) (itr : List Char),
      ft = (segs.map (fun s => s.text ++ [' '])).flatten →
      (setupFold (ft, segs, itr) rs).1 =
        ((setupFold (ft, segs, itr) rs).2.1.map (fun s => s.text ++ [' '])).flatten := by
  induction rs with
  | nil =>
    intro ft segs itr h
    exact h
  | cons r rs' ih =>
    intro ft segs itr h
    by_cases hf : r.isFinal = true
    · simp only [setupFold, hf, if_true]
      exact ih _ _ _ (by simp [h])
    · have hf' : r.isFinal = false := by
        cases hb : r.isFinal
        · rfl
        · exact absurd hb hf
      simp only [setupFold, hf', Bool.false_eq_true, if_false]
      exact ih _ _ _ h

/-- The transcript and segment components of the fold do not depend on
the interim accumulator. -/
theorem setupFold_itr_independent (rs : List SpeechRecognitionResult) :
    ∀ (ft : List Char) (segs : List TranscriptionSegment) (itr itr' : List Char),
      (setupFold (ft, segs, itr) rs).1 = (setupFold (ft, segs, itr') rs).1
      ∧ (setupFold (ft, segs, itr) rs).2.1 = (setupFold (ft, segs, itr') rs).2.1 := by
  induction rs with
  | nil =>
    intro ft segs itr itr'
    exact ⟨rfl, rfl⟩
  | cons r rs' ih =>
    intro ft segs itr itr'
    by_cases hf : r.isFinal = true
    · simp only [setupFold, hf, if_true]
      exact ih _ _ _ _
    · have hf' : r.isFinal = false := by
        cases hb : r.isFinal
        · rfl
        · exact absurd hb hf
      simp only [setupFold, hf', Bool.false_eq_true, if_false]
      exact ih _ _ _ _

/-- Dropping the non-final results changes neither the transcript nor
the segments of the fold. -/
theorem setupFold_filter (rs : List SpeechRecognitionResult) :
    ∀ (ft : List Char) (segs : List TranscriptionSegment) (itr : List Char),
      (setupFold (ft, segs, itr) rs).1 =
        (setupFold (ft, segs, itr) (rs.filter (fun r => r.isFinal))).1
      ∧ (setupFold (ft, segs, itr) rs).2.1 =
        (setupFold (ft, segs, itr) (rs.filter (fun r => r.isFinal))).2.1 := by
  induction rs with
  | nil =>
    intro ft segs itr
    exact ⟨rfl, rfl⟩
  | cons r rs' ih =>
    intro ft segs itr
    by_cases hf : r.isFinal = true
    · simp only [List.filter_cons, hf, if_true, setupFold]
      exact ih _ _ _
    · have hf' : r.isFinal = false := by
        cases hb : r.isFinal
        · rfl
        · exact absurd hb hf
      simp only [List.filter_cons, hf', Bool.false_eq_true, if_false, setupFold]
      constructor
      · calc (setupFold (ft, segs, itr ++ r.firstAlt.transcript) rs').1
            = (setupFold (ft, segs, itr ++ r.firstAlt.transcript)
                (rs'.filter (fun r => r.isFinal))).1 := (ih ft segs _).1
          _ = (setupFold (ft, segs, itr) (rs'.filter (fun r => r.isFinal))).1 :=
            (setupFold_itr_independent _ ft segs _ itr).1
      · calc (setupFold (ft, segs, itr ++ r.firstAlt.transcript) rs').2.1
            = (setupFold (ft, segs, itr ++ r.firstAlt.transcript)
                (rs'.filter (fun r => r.isFinal))).2.1 := (ih ft segs _).2
          _ = (setupFold (ft, segs, itr) (rs'.filter (fun r => r.isFinal))).2.1 :=
            (setupFold_itr_independent _ ft segs _ itr).2

/-- One event step preserves agreement of transcript and segments
between an unfiltered run and a final-filtered run. -/
theorem setupOnResultEvent_filter_agree (rs : List SpeechRecognitionResult)
    (st1 st2 : RState)
    (h1 : st1.finalTranscript = st2.finalTranscript)
    (h2 : st1.segments = st2.segments) :
    (setupOnResultEvent st1 rs).finalTranscript =
      (setupOnResultEvent st2 (rs.filter (fun r => r.isFinal))).finalTranscript
    ∧ (setupOnResultEvent st1 rs).segments =
      (setupOnResultEvent st2 (rs.filter (fun r => r.isFinal))).segments := by
  constructor
  · show (setupFold (st1.finalTranscript, st1.segments, []) rs).1 =
      (setupFold (st2.finalTranscript, st2.segments, [])
        (rs.filter (fun r => r.isFinal))).1
    rw [(setupFold_filter rs _ _ _).1, h1, h2]
  · show (setupFold (st1.finalTranscript, st1.segments, []) rs).2.1 =
      (setupFold (st2.finalTranscript, st2.segments, [])
        (rs.filter (fun r => r.isFinal))).2.1
    rw [(setupFold_filter rs _ _ _).2, h1, h2]

theorem setupSession_transcript (events : List (List SpeechRecognitionResult)) :
    (setupSession events).finalTranscript =
      ((setupSession events).segments.map (fun s => s.text ++ [' '])).flatten := by
  suffices h : ∀ (l : List (List SpeechRecognitionResult)) (st : RState),
      st.finalTranscript = (st.segments.map (fun s => s.text ++ [' '])).flatten →
      (l.foldl setupOnResultEvent st).finalTranscript =
        ((l.foldl setupOnResultEvent st).segments.map
          (fun s => s.text ++ [' '])).flatten by
    exact h events ⟨[], [], []⟩ rfl
  intro l
  induction l with
  | nil =>
    intro st h
    exact h
  | cons rs l' ih =>
    intro st h
    exact ih _ (setupFold_transcript rs _ _ _ h)

theorem setupSession_filter (events : List (List SpeechRecognitionResult)) :
    (setupSession events).finalTranscript =
      (setupSession (events.map (fun rs =>
        rs.filter (fun r => r.isFinal)))).finalTranscript
    ∧ (setupSession events).segments =
      (setupSession (events.map (fun rs =>
        rs.filter (fun r => r.isFinal)))).segments := by
  suffices h : ∀ (l : List (List SpeechRecognitionResult)) (st1 st2 : RState),
      st1.finalTranscript = st2.finalTranscript →
      st1.segments = st2.segments →
      ((l.foldl setupOnResultEvent st1).finalTranscript =
        ((l.map (fun rs => rs.filter (fun r => r.isFinal))).foldl
          setupOnResultEvent st2).finalTranscript
      ∧ (l.foldl setupOnResultEvent st1).segments =
        ((l.map (fun rs => rs.filter (fun r => r.isFinal))).foldl
          setupOnResultEvent st2).segments) by
    exact h events ⟨[], [], []⟩ ⟨[], [], []⟩ rfl rfl
  intro l
  induction l with
  | nil =>
    intro st1 st2 h1 h2
    exact ⟨h1, h2⟩
  | cons rs l' ih =>
    intro st1 st2 h1 h2
    have h := setupOnResultEvent_filter_agree rs st1 st2 h1 h2
    exact ih _ _ h.1 h.2

end SpeechToText

/-- Claim C8 (amended): in both handlers the claim's sources name, the
accumulated transcript equals the concatenation of the final segments'
stored texts each followed by a single space, and `fullText` is its
trim — in `cleanTranscriptionService` the stored text is the trimmed
transcript (texts joined by single spaces), while in
`speechToTextService.setupRecognition` the stored text is the raw,
untrimmed transcript, so edge whitespace in a transcript yields extra
spaces rather than being normalized; in both handlers interim results
contribute nothing to `fullText`, the segment list, or any aggregate
computed from the segments. -/
theorem fulltext_is_space_joined_segments :
    (∀ rs : List SpeechRecognitionResult,
      (CleanService.processRecognitionResults ([], []) rs).1 =
        ((CleanService.processRecognitionResults ([], []) rs).2.map
          (fun s => s.text ++ [' '])).flatten
      ∧ CleanService.processRecognitionResults ([], []) rs =
          CleanService.processRecognitionResults ([], [])
            (rs.filter (fun r => r.isFinal)))
    ∧ (∀ events : List (List SpeechRecognitionResult),
      (SpeechToText.setupSession events).finalTranscript =
        ((SpeechToText.setupSession events).segments.map
          (fun s => s.text ++ [' '])).flatten
      ∧ (∀ language : String,
          (SpeechToText.stopRealTimeTranscription
              (SpeechToText.setupSession events) language).fullText =
            jsTrim (((SpeechToText.setupSession events).segments.map
              (fun s => s.text ++ [' '])).flatten))
      ∧ (SpeechToText.setupSession events).finalTranscript =
          (SpeechToText.setupSession (events.map (fun rs =>
            rs.filter (fun r => r.isFinal)))).finalTranscript
      ∧ (SpeechToText.setupSession events).segments =
          (SpeechToText.setupSession (events.map (fun rs =>
            rs.filter (fun r => r.isFinal)))).segments) := by
  constructor
  · intro rs
    exact ⟨processRecognitionResults_transcript rs ([], []) rfl,
      processRecognitionResults_filter_final rs ([], [])⟩
  · intro events
    refine ⟨SpeechToText.setupSession_transcript events, ?_,
      (SpeechToText.setupSession_filter events).1,
      (SpeechToText.setupSession_filter events).2⟩
    intro language
    show jsTrim (SpeechToText.setupSession events).finalTranscript = _
    rw [SpeechToText.setupSession_transcript events]

/-! ## Strategy equivalence (claim C10) -/

/-- Claim C10: every branch of `executeTranscriptionStrategy` — including
the `default` one — computes the same function as
`transcribeWithDirectPlayback` (the `direct` parameter), so the strategy
chosen by `selectOptimalStrategy` has no effect on the transcription
result. -/
theorem strategy_choice_has_no_effect {Blob Opts : Type}
    (direct : Blob → AudioSource → Opts →
      Except String CleanService.CleanTranscriptionResult) :
    (∀ (strategy : String) (audioBlob : Blob) (audioSource : AudioSource)
        (options : Opts),
      CleanService.executeTranscriptionStrategy direct audioBlob audioSource
          strategy options =
        direct audioBlob audioSource options)
    ∧ (∀ (audioBlob : Blob) (audioSource selectSource : AudioSource)
        (isHighQuality : Bool) (options : Opts),
      CleanService.executeTranscriptionStrategy direct audioBlob audioSource
          (CleanService.selectOptimalStrategy selectSource isHighQuality) options =
        direct audioBlob audioSource options) := by
  have main : ∀ (strategy : String) (audioBlob : Blob) (audioSource : AudioSource)
      (options : Opts),
      CleanService.executeTranscriptionStrategy direct audioBlob audioSource
          strategy options =
        direct audioBlob audioSource options := by
    intro strategy b src opts
    unfold CleanService.executeTranscriptionStrategy
      CleanService.transcribeWithEnhancedProcessing
      CleanService.transcribeWithAdaptiveProcessing
      CleanService.transcribeWithStandardProcessing
    split_ifs with h1 h2 h3
    · rfl
    · rfl
    · cases hd : direct b src opts with
      | ok r => rfl
      | error e => rfl
    · rfl
  exact ⟨main, fun b src ssrc q opts =>
    main (CleanService.selectOptimalStrategy ssrc q) b src opts⟩
